import Mathlib

/-!
Verification of the JAVASTOK inventory application against its specification.

The development shallowly embeds the server storage layer
(server/storage.ts: the in-memory MemStorage variant and, where its
behaviour differs, the DatabaseStorage variant), the relevant HTTP route
handlers (server/routes.ts) and the client summary aggregator
(client/src/pages/reporting.tsx).  JavaScript numbers are modelled as
rationals, timestamps as naturals, JavaScript Map objects as lists in
insertion order with unique keys, and SQL row sets as lists.
-/

namespace JavaStok

/-- Account row, from the users table in shared/schema.ts. -/
structure User where
  id : Nat
  username : String
  password : String
  is_admin : Bool
  can_add_product : Bool
  can_view_reports : Bool
  can_manage_inventory : Bool
  deriving DecidableEq, Repr

/-- Product row, from the products table in shared/schema.ts. -/
structure Product where
  id : Nat
  name : String
  category : String
  deriving DecidableEq, Repr

/-- Inventory (balance) row, from the inventory table in shared/schema.ts. -/
structure Inventory where
  id : Nat
  product_id : Nat
  quantity : Rat
  unit : String
  total_price : Rat
  last_updated : Nat
  updated_by : Option Nat
  deriving DecidableEq, Repr

/-- Inventory movement row, from the inventory_movements table in shared/schema.ts. -/
structure InventoryMovement where
  id : Nat
  product_id : Nat
  quantity_change : Rat
  unit : String
  total_price : Rat
  movement_type : String
  movement_date : Nat
  user_id : Option Nat
  deriving DecidableEq, Repr

/-- Insert payload for the inventory table (InsertInventory in shared/schema.ts). -/
structure InsertInventory where
  product_id : Nat
  quantity : Rat
  unit : String
  total_price : Rat
  updated_by : Option Nat
  deriving Repr

/-- Insert payload for the inventory_movements table. -/
structure InsertInventoryMovement where
  product_id : Nat
  quantity_change : Rat
  unit : String
  total_price : Rat
  movement_type : String
  user_id : Option Nat
  deriving Repr

/-- State of MemStorage in server/storage.ts: four Map objects in insertion
order plus the id counters. -/
structure MemStorage where
  users : List User
  products : List Product
  inventory : List Inventory
  inventoryMovements : List InventoryMovement
  userIdCounter : Nat
  productIdCounter : Nat
  inventoryIdCounter : Nat
  movementIdCounter : Nat
  deriving DecidableEq, Repr

/-- MemStorage.getUser: point lookup by id. -/
def getUser (s : MemStorage) (id : Nat) : Option User :=
  s.users.find? (fun u => u.id == id)

/-- JavaScript String.prototype.toLowerCase, modelled character by
character. -/
def lowerStr (s : String) : String := ⟨s.data.map Char.toLower⟩

/-- MemStorage.getUserByUsername: first user whose lower-cased username equals
the lower-cased argument. -/
def getUserByUsername (s : MemStorage) (username : String) : Option User :=
  s.users.find? (fun u => lowerStr u.username == lowerStr username)

/-- MemStorage.getProductByName: first product whose lower-cased name equals
the lower-cased argument. -/
def getProductByName (s : MemStorage) (name : String) : Option Product :=
  s.products.find? (fun p => lowerStr p.name == lowerStr name)

/-- MemStorage.createProduct: assigns the next product id and defaults a
falsy category to "GENEL". -/
def createProduct (s : MemStorage) (name : String) (category : Option String) :
    MemStorage × Product :=
  let cat := match category with
    | none => "GENEL"
    | some c => if c = "" then "GENEL" else c
  let p : Product := { id := s.productIdCounter, name := name, category := cat }
  ({ s with products := s.products ++ [p], productIdCounter := s.productIdCounter + 1 }, p)

/-- MemStorage.deleteProduct: removes the inventory rows and movement rows of
the product, then deletes the product row, reporting whether it existed. -/
def deleteProduct (s : MemStorage) (id : Nat) : MemStorage × Bool :=
  let s1 := { s with
    inventory := s.inventory.filter (fun it => it.product_id != id),
    inventoryMovements := s.inventoryMovements.filter (fun m => m.product_id != id) }
  if s1.products.any (fun p => p.id == id) then
    ({ s1 with products := s1.products.filter (fun p => p.id != id) }, true)
  else
    (s1, false)

/-- MemStorage.getInventoryItem: first inventory row for the product. -/
def getInventoryItem (s : MemStorage) (productId : Nat) : Option Inventory :=
  s.inventory.find? (fun it => it.product_id == productId)

/-- MemStorage.updateInventory: adds the quantity and total price onto an
existing balance row (overwriting the unit), or lazily creates the row. -/
def updateInventory (s : MemStorage) (item : InsertInventory) (now : Nat) :
    MemStorage × Inventory :=
  match getInventoryItem s item.product_id with
  | some existingItem =>
      let updatedItem : Inventory :=
        { existingItem with
          quantity := existingItem.quantity + item.quantity
          unit := item.unit
          total_price := existingItem.total_price + item.total_price
          last_updated := now
          updated_by := item.updated_by }
      ({ s with inventory :=
          s.inventory.map (fun it : Inventory =>
            if it.id == existingItem.id then updatedItem else it) },
       updatedItem)
  | none =>
      let newItem : Inventory :=
        { id := s.inventoryIdCounter
          product_id := item.product_id
          quantity := item.quantity
          unit := item.unit
          total_price := item.total_price
          last_updated := now
          updated_by := item.updated_by }
      ({ s with inventory := s.inventory ++ [newItem],
                inventoryIdCounter := s.inventoryIdCounter + 1 },
       newItem)

/-- MemStorage.createInventoryMovement: appends a movement stamped with the
server time and the next movement id. -/
def createInventoryMovement (s : MemStorage) (movement : InsertInventoryMovement)
    (now : Nat) : MemStorage × InventoryMovement :=
  let newMovement : InventoryMovement :=
    { id := s.movementIdCounter
      product_id := movement.product_id
      quantity_change := movement.quantity_change
      unit := movement.unit
      total_price := movement.total_price
      movement_type := movement.movement_type
      movement_date := now
      user_id := movement.user_id }
  ({ s with inventoryMovements := s.inventoryMovements ++ [newMovement],
            movementIdCounter := s.movementIdCounter + 1 },
   newMovement)

/-- MemStorage.getInventoryMovement: point lookup by id. -/
def getInventoryMovement (s : MemStorage) (id : Nat) : Option InventoryMovement :=
  s.inventoryMovements.find? (fun m => m.id == id)

/-- MemStorage.deleteInventoryMovement: if the movement exists, subtracts its
quantity_change and total_price from the balance row of its product (when that
row exists) and removes the movement, reporting true; otherwise reports false
with no state change. -/
def deleteInventoryMovement (s : MemStorage) (id : Nat) (now : Nat) :
    MemStorage × Bool :=
  match getInventoryMovement s id with
  | none => (s, false)
  | some movement =>
      let s1 :=
        match getInventoryItem s movement.product_id with
        | some inventoryItem =>
            let updatedItem : Inventory :=
              { inventoryItem with
                quantity := inventoryItem.quantity - movement.quantity_change
                total_price := inventoryItem.total_price - movement.total_price
                last_updated := now }
            { s with inventory :=
                s.inventory.map (fun it : Inventory =>
                  if it.id == inventoryItem.id then updatedItem else it) }
        | none => s
      ({ s1 with inventoryMovements := s1.inventoryMovements.filter (fun m => m.id != id) },
       true)

/-- MemStorage.deleteUser: Map.delete semantics, true iff the id existed. -/
def deleteUser (s : MemStorage) (id : Nat) : MemStorage × Bool :=
  if s.users.any (fun u => u.id == id) then
    ({ s with users := s.users.filter (fun u => u.id != id) }, true)
  else
    (s, false)

/-- One row of getInventoryReport (ProductWithInventory in shared/schema.ts). -/
structure ProductWithInventory where
  id : Nat
  name : String
  category : String
  current_quantity : Rat
  unit : String
  total_value : Rat
  movement_count : Nat
  deriving DecidableEq, Repr

/-- MemStorage.getInventoryReport: one row per product carrying the current
balance figures (defaulted when no balance row exists) and the count of that
product movements dated within the inclusive window. -/
def getInventoryReport (s : MemStorage) (startDate endDate : Nat) :
    List ProductWithInventory :=
  s.products.map (fun product =>
    let inventoryItem := getInventoryItem s product.id
    let movements := s.inventoryMovements.filter (fun m =>
      m.product_id == product.id &&
      decide (startDate ≤ m.movement_date) && decide (m.movement_date ≤ endDate))
    { id := product.id
      name := product.name
      category := product.category
      current_quantity := (inventoryItem.map (fun it => it.quantity)).getD 0
      unit := (inventoryItem.map (fun it => it.unit)).getD ""
      total_value := (inventoryItem.map (fun it => it.total_price)).getD 0
      movement_count := movements.length })

/-- The MemStorage constructor: empty tables, counters at 1, then the
bootstrap admin user. -/
def initialStorage : MemStorage :=
  let s0 : MemStorage :=
    { users := [], products := [], inventory := [], inventoryMovements := []
      userIdCounter := 1, productIdCounter := 1
      inventoryIdCounter := 1, movementIdCounter := 1 }
  let admin : User :=
    { id := 1, username := "admin", password := "hashed-1234"
      is_admin := true, can_add_product := true
      can_view_reports := true, can_manage_inventory := true }
  { s0 with users := [admin], userIdCounter := 2 }

/-! ### Route handlers (server/routes.ts) -/

/-- Body of POST /api/inventory/movements restricted to number-typed fields,
the payload shape the client form sends; the raw JSON body, whose fields may
also be strings, is modelled by JsonMovementRequest below. -/
structure MovementRequest where
  product_id : Option Nat
  quantity_change : Option Rat
  unit : Option String
  total_price : Option Rat
  deriving Repr

/-- JavaScript truthiness of a numeric rational field: absent and 0 are falsy. -/
def numFieldTruthy (v : Option Rat) : Bool :=
  match v with
  | none => false
  | some x => decide (x ≠ 0)

/-- JavaScript truthiness of a numeric id field: absent and 0 are falsy. -/
def natFieldTruthy (v : Option Nat) : Bool :=
  match v with
  | none => false
  | some n => decide (n ≠ 0)

/-- JavaScript truthiness of a string field: absent and the empty string are falsy. -/
def strFieldTruthy (v : Option String) : Bool :=
  match v with
  | none => false
  | some u => decide (u ≠ "")

/-- The validation test of POST /api/inventory/movements: product_id,
quantity_change and unit are tested by truthiness, total_price only against
undefined. -/
def movementRequestValid (r : MovementRequest) : Bool :=
  natFieldTruthy r.product_id && numFieldTruthy r.quantity_change &&
  strFieldTruthy r.unit && r.total_price.isSome

/-- The successful path of POST /api/inventory/movements: insert the movement
row, then add the same figures onto the balance via updateInventory. -/
def recordMovement (s : MemStorage) (product_id : Nat) (quantity_change : Rat)
    (unit : String) (total_price : Rat) (user_id : Nat) (now : Nat) :
    MemStorage × InventoryMovement :=
  let r1 := createInventoryMovement s
    { product_id := product_id, quantity_change := quantity_change, unit := unit
      total_price := total_price, movement_type := "update", user_id := some user_id } now
  let r2 := updateInventory r1.1
    { product_id := product_id, quantity := quantity_change, unit := unit
      total_price := total_price, updated_by := some user_id } now
  (r2.1, r1.2)

/-- The POST /api/inventory/movements handler after authentication, returning
the new state and HTTP status.  The updateFails flag injects a storage error
thrown inside updateInventory after createInventoryMovement already
succeeded; the catch block of the handler answers 500 and performs no
rollback of the inserted movement row. -/
def postMovementHandler (s : MemStorage) (r : MovementRequest) (user_id : Nat)
    (now : Nat) (updateFails : Bool) : MemStorage × Nat :=
  if !(movementRequestValid r) then (s, 400)
  else
    match r.product_id, r.quantity_change, r.unit, r.total_price with
    | some pid, some qc, some unit, some tp =>
        let r1 := createInventoryMovement s
          { product_id := pid, quantity_change := qc, unit := unit
            total_price := tp, movement_type := "update", user_id := some user_id } now
        if updateFails then (r1.1, 500)
        else
          let r2 := updateInventory r1.1
            { product_id := pid, quantity := qc, unit := unit
              total_price := tp, updated_by := some user_id } now
          (r2.1, 201)
    | _, _, _, _ => (s, 400)

/-- One JSON value of a request body field: a number or a string. -/
inductive BodyVal where
  | num (x : Rat)
  | str (s : String)
  deriving DecidableEq, Repr

/-- Raw JSON body of POST /api/inventory/movements: each field may be absent,
a number, or a string. -/
structure JsonMovementRequest where
  product_id : Option BodyVal
  quantity_change : Option BodyVal
  unit : Option BodyVal
  total_price : Option BodyVal
  deriving DecidableEq, Repr

/-- JavaScript truthiness of a JSON body field: absent, the number 0 and the
empty string are falsy; every other number and every non-empty string is
truthy. -/
def bodyTruthy : Option BodyVal → Bool
  | none => false
  | some (.num x) => decide (x ≠ 0)
  | some (.str s) => decide (s ≠ "")

/-- The validation test of POST /api/inventory/movements on the raw JSON
body: product_id, quantity_change and unit are tested by truthiness, and
total_price only against undefined. -/
def jsonMovementRequestValid (r : JsonMovementRequest) : Bool :=
  bodyTruthy r.product_id && bodyTruthy r.quantity_change &&
  bodyTruthy r.unit && r.total_price.isSome

/-- Longest leading run of decimal digit characters, with the rest. -/
def splitDigits : List Char → List Char × List Char
  | [] => ([], [])
  | c :: cs =>
      if c.isDigit then
        let r := splitDigits cs
        (c :: r.1, r.2)
      else ([], c :: cs)

/-- Numeric value of a run of decimal digit characters. -/
def digitsVal (ds : List Char) : Nat :=
  ds.foldl (fun acc c => acc * 10 + (c.toNat - 48)) 0

/-- JavaScript parseFloat on a character list, restricted to the rational
fragment: exactly an optional sign, digits, and an optional dot with
fraction digits.  Whenever this yields some q, parseFloat yields q on that
string; on any other string parseFloat may yield NaN or need float-specific
forms with no rational counterpart, rendered none and left outside the
embedding. -/
def parseFloatChars (cs : List Char) : Option Rat :=
  let sr : Bool × List Char :=
    match cs with
    | '-' :: rest => (true, rest)
    | '+' :: rest => (false, rest)
    | _ => (false, cs)
  let ip := splitDigits sr.2
  let fr : List Char × List Char :=
    match ip.2 with
    | '.' :: rest => splitDigits rest
    | _ => ([], ip.2)
  if (ip.1 = [] ∧ fr.1 = []) ∨ fr.2 ≠ [] then none
  else
    let mag : Rat :=
      if fr.1 = [] then (digitsVal ip.1 : Rat)
      else (digitsVal ip.1 : Rat) + (digitsVal fr.1 : Rat) / ((10 : Rat) ^ fr.1.length)
    some (if sr.1 then -mag else mag)

/-- JavaScript parseFloat on a JSON value: a number parses to itself, a
string through its rational fragment. -/
def parseFloatVal : BodyVal → Option Rat
  | .num x => some x
  | .str s => parseFloatChars s.data

/-- JavaScript parseInt on a JSON value, restricted to the natural id space
of the embedding: a nonnegative whole number parses to itself and a digit
string to the natural it denotes; other inputs (negative, fractional, or
non-numeral strings, where parseInt yields other integers or NaN) are
rendered none and left outside the id space. -/
def parseIntVal : BodyVal → Option Nat
  | .num x => if x.den = 1 ∧ 0 ≤ x.num then some x.num.toNat else none
  | .str s =>
      let dr := splitDigits s.data
      if dr.1 = [] ∨ dr.2 ≠ [] then none else some (digitsVal dr.1)

/-- The unit field is stored as-is into a text column; a non-string unit is
left outside the embedding. -/
def unitStringVal : Option BodyVal → Option String
  | some (.str u) => some u
  | _ => none

/-- The POST /api/inventory/movements handler after authentication, over the
raw JSON body.  The truthiness validation runs first, exactly as in the
source; on success the numeric fields are coerced with parseInt and
parseFloat and the movement insert plus balance update run (the
recordMovement composition).  A coercion falling outside the rational or
natural fragments is rendered none: no theorem below depends on that
branch. -/
def postMovementHandlerJson (s : MemStorage) (r : JsonMovementRequest)
    (user_id now : Nat) : Option (MemStorage × Nat) :=
  if !(jsonMovementRequestValid r) then some (s, 400)
  else
    match r.product_id.bind parseIntVal, r.quantity_change.bind parseFloatVal,
          unitStringVal r.unit, r.total_price.bind parseFloatVal with
    | some pid, some qc, some u, some tp =>
        some ((recordMovement s pid qc u tp user_id now).1, 201)
    | _, _, _, _ => none

/-- The DELETE /api/users/:id handler after authentication: forbids
non-admin requesters, self-deletion, and deleting an admin when at most one
admin account exists; otherwise delegates to deleteUser and maps its boolean
to 200 or 404. -/
def deleteUserRoute (s : MemStorage) (requester : User) (id : Nat) :
    MemStorage × Nat :=
  if !requester.is_admin then (s, 403)
  else if id == requester.id then (s, 400)
  else
    let admins := s.users.filter (fun u => u.is_admin)
    let targetIsAdmin :=
      match getUser s id with
      | some t => t.is_admin
      | none => false
    if targetIsAdmin && decide (admins.length ≤ 1) then (s, 400)
    else
      let r := deleteUser s id
      if r.2 then (r.1, 200) else (r.1, 404)

/-- The DELETE /api/products/:id handler after authentication, on MemStorage:
maps the deleteProduct boolean to 200 or 404. -/
def deleteProductRoute (s : MemStorage) (id : Nat) : MemStorage × Nat :=
  let r := deleteProduct s id
  if r.2 then (r.1, 200) else (r.1, 404)

/-! ### DatabaseStorage variants that differ from MemStorage -/

/-- Row sets of the live DatabaseStorage (failure-free SQL semantics). -/
structure DbState where
  users : List User
  products : List Product
  inventory : List Inventory
  inventoryMovements : List InventoryMovement
  deriving Repr

/-- DatabaseStorage.getUserByUsername: a plain SQL equality on the username
column, which is case sensitive. -/
def dbGetUserByUsername (s : DbState) (username : String) : Option User :=
  s.users.find? (fun u => u.username == username)

/-- DatabaseStorage.getProductByName: a plain SQL equality on the name
column, which is case sensitive. -/
def dbGetProductByName (s : DbState) (name : String) : Option Product :=
  s.products.find? (fun p => p.name == name)

/-- DatabaseStorage.deleteProduct: deletes the dependent movement and
inventory rows and the product row, and returns true unconditionally (false
is returned only when the store throws). -/
def dbDeleteProduct (s : DbState) (id : Nat) : DbState × Bool :=
  ({ s with
      inventoryMovements := s.inventoryMovements.filter (fun m => m.product_id != id),
      inventory := s.inventory.filter (fun it => it.product_id != id),
      products := s.products.filter (fun p => p.id != id) },
   true)

/-- The DELETE /api/products/:id handler on the live DatabaseStorage. -/
def dbDeleteProductRoute (s : DbState) (id : Nat) : DbState × Nat :=
  let r := dbDeleteProduct s id
  if r.2 then (r.1, 200) else (r.1, 404)

/-! ### Summary aggregator (client/src/pages/reporting.tsx, summary tab) -/

/-- One input row of the summary aggregation. -/
structure ReportRow where
  product_name : String
  quantity_change : Rat
  unit : String
  total_price : Rat
  deriving Repr

/-- One output group of the summary aggregation. -/
structure SummaryGroup where
  name : String
  quantity : Rat
  unit : String
  total_price : Rat
  deriving DecidableEq, Repr

/-- One step of the group-by reduce: create the group on first sight of the
product name, then add the absolute quantity change and the total price. -/
def addToGroups (acc : List SummaryGroup) (item : ReportRow) : List SummaryGroup :=
  if acc.any (fun g => g.name == item.product_name) then
    acc.map (fun g : SummaryGroup =>
      if g.name == item.product_name then
        { g with quantity := g.quantity + |item.quantity_change|,
                 total_price := g.total_price + item.total_price }
      else g)
  else
    acc ++ [{ name := item.product_name, quantity := |item.quantity_change|,
              unit := item.unit, total_price := item.total_price }]

/-- The group-by reduce of the summary tab over the report rows. -/
def summaryGroups (rows : List ReportRow) : List SummaryGroup :=
  rows.foldl addToGroups []

/-- The derived unit price of a group: total price over quantity when the
quantity is positive, otherwise the zero rendered as 0.00. -/
def unitPrice (g : SummaryGroup) : Rat :=
  if 0 < g.quantity then g.total_price / g.quantity else 0

/-! ### Ledger operation sequences and the balance invariant -/

/-- One public ledger operation: a successful POST of a movement or a DELETE
of a movement, each stamped with the server time of the request. -/
inductive LedgerOp where
  | record (product_id : Nat) (quantity_change : Rat) (unit : String)
      (total_price : Rat) (user_id : Nat) (now : Nat)
  | delete (id : Nat) (now : Nat)

/-- Apply one ledger operation to the store. -/
def applyLedgerOp (s : MemStorage) : LedgerOp → MemStorage
  | .record pid qc unit tp uid now => (recordMovement s pid qc unit tp uid now).1
  | .delete id now => (deleteInventoryMovement s id now).1

/-- Run a sequence of ledger operations. -/
def runLedgerOps (s : MemStorage) (ops : List LedgerOp) : MemStorage :=
  ops.foldl applyLedgerOp s

/-- Sum of a rational field over the movements of one product in a list. -/
def fieldSum (f : InventoryMovement → Rat) (l : List InventoryMovement) (pid : Nat) : Rat :=
  ((l.filter (fun m => m.product_id == pid)).map f).sum

/-- Sum of quantity_change over the stored movements of a product. -/
def movementQuantitySum (s : MemStorage) (pid : Nat) : Rat :=
  fieldSum (fun m => m.quantity_change) s.inventoryMovements pid

/-- Sum of total_price over the stored movements of a product. -/
def movementPriceSum (s : MemStorage) (pid : Nat) : Rat :=
  fieldSum (fun m => m.total_price) s.inventoryMovements pid

/-- The ledger balance condition of the specification for one product: the
balance row carries exactly the sums over the non-deleted movements of the
product, a missing balance row standing for zero sums. -/
def BalanceMatchesLedger (s : MemStorage) (pid : Nat) : Prop :=
  match getInventoryItem s pid with
  | none => movementQuantitySum s pid = 0 ∧ movementPriceSum s pid = 0
  | some b => b.quantity = movementQuantitySum s pid ∧ b.total_price = movementPriceSum s pid

/-- Internal well-formedness of a reachable MemStorage: movement and
inventory keys are unique and below their counters (Map semantics), every
product with a movement has a balance row, and the balance row carries the
ledger sums. -/
structure StoreWF (s : MemStorage) : Prop where
  movIds : (s.inventoryMovements.map (fun m => m.id)).Nodup
  movIdLt : ∀ m ∈ s.inventoryMovements, m.id < s.movementIdCounter
  invIds : (s.inventory.map (fun it => it.id)).Nodup
  invIdLt : ∀ it ∈ s.inventory, it.id < s.inventoryIdCounter
  ledgerNone : ∀ pid : Nat, getInventoryItem s pid = none →
    s.inventoryMovements.filter (fun m => m.product_id == pid) = []
  ledgerSome : ∀ (pid : Nat) (b : Inventory), getInventoryItem s pid = some b →
    b.quantity = movementQuantitySum s pid ∧ b.total_price = movementPriceSum s pid

/-! ### Helper lemmas about sums and lookups -/

theorem fieldSum_nil (f : InventoryMovement → Rat) (pid : Nat) : fieldSum f [] pid = 0 := by
  simp [fieldSum]

theorem fieldSum_cons (f : InventoryMovement → Rat) (x : InventoryMovement)
    (l : List InventoryMovement) (pid : Nat) :
    fieldSum f (x :: l) pid = (if x.product_id = pid then f x else 0) + fieldSum f l pid := by
  by_cases h : x.product_id = pid <;> simp [fieldSum, List.filter_cons, h]

theorem fieldSum_append_single (f : InventoryMovement → Rat) (l : List InventoryMovement)
    (m : InventoryMovement) (pid : Nat) :
    fieldSum f (l ++ [m]) pid = fieldSum f l pid + (if m.product_id = pid then f m else 0) := by
  by_cases h : m.product_id = pid <;> simp [fieldSum, List.filter_append, List.filter_cons, h]

theorem fieldSum_remove (f : InventoryMovement → Rat) (l : List InventoryMovement)
    (id : Nat) (m : InventoryMovement)
    (hnd : (l.map (fun x => x.id)).Nodup)
    (hf : l.find? (fun x => x.id == id) = some m) (pid : Nat) :
    fieldSum f (l.filter (fun x => x.id != id)) pid
      = fieldSum f l pid - (if m.product_id = pid then f m else 0) := by
  induction l with
  | nil => simp at hf
  | cons x xs ih =>
      simp only [List.map_cons, List.nodup_cons] at hnd
      rw [List.find?_cons] at hf
      by_cases hx : x.id = id
      · have hmx : m = x := by simp [hx] at hf; exact hf.symm
        have hkeep : xs.filter (fun y => y.id != id) = xs := by
          rw [List.filter_eq_self]
          intro y hy
          simp only [bne_iff_ne, ne_eq]
          intro hyid
          apply hnd.1
          have hmem : y.id ∈ xs.map (fun z : InventoryMovement => z.id) :=
            List.mem_map_of_mem (fun z : InventoryMovement => z.id) hy
          rw [hyid, ← hx] at hmem
          exact hmem
        rw [List.filter_cons, if_neg (by simp [hx] : ¬((x.id != id) = true)), hkeep,
          fieldSum_cons, hmx]
        ring
      · have hfx : (x.id == id) = false := by simp [hx]
        rw [hfx] at hf
        rw [List.filter_cons, if_pos (by simp [hx] : (x.id != id) = true),
          fieldSum_cons, fieldSum_cons, ih hnd.2 hf]
        ring

theorem find?_filter_ne_id (l : List InventoryMovement) (id : Nat) :
    (l.filter (fun m => m.id != id)).find? (fun m => m.id == id) = none := by
  rw [List.find?_eq_none]
  intro x hx
  rcases List.mem_filter.mp hx with ⟨_, hne⟩
  simp only [bne_iff_ne, ne_eq] at hne
  simp [hne]

theorem find?_eq_of_unique {α : Type} (l : List α) (p : α → Bool) (a : α)
    (ha : a ∈ l) (hpa : p a = true)
    (huniq : ∀ x ∈ l, p x = true → x = a) : l.find? p = some a := by
  induction l with
  | nil => simp at ha
  | cons x xs ih =>
      rw [List.find?_cons]
      cases hpx : p x with
      | true => rw [huniq x (List.mem_cons_self x xs) hpx]
      | false =>
          have hax : a ≠ x := fun h => by rw [h] at hpa; rw [hpa] at hpx; cases hpx
          have ha' : a ∈ xs := by
            rcases List.mem_cons.mp ha with h | h
            · exact absurd h hax
            · exact h
          exact ih ha' (fun y hy hpy => huniq y (List.mem_cons_of_mem x hy) hpy)

theorem replace_map_id (inv : List Inventory) (b upd : Inventory) (hid : upd.id = b.id) :
    ((inv.map (fun it : Inventory => if it.id == b.id then upd else it)).map
      (fun it => it.id)) = inv.map (fun it => it.id) := by
  rw [List.map_map]
  apply List.map_congr_left
  intro a _
  simp only [Function.comp_apply]
  by_cases h : a.id = b.id <;> simp [h, hid]

theorem find?_replace_self (inv : List Inventory) (pid : Nat) (b upd : Inventory)
    (hfind : inv.find? (fun it => it.product_id == pid) = some b)
    (hupd : upd.product_id = pid)
    (hnd : (inv.map (fun it => it.id)).Nodup) :
    (inv.map (fun it : Inventory => if it.id == b.id then upd else it)).find?
      (fun it => it.product_id == pid) = some upd := by
  induction inv with
  | nil => simp at hfind
  | cons x xs ih =>
      simp only [List.map_cons, List.nodup_cons] at hnd
      rw [List.find?_cons] at hfind
      by_cases hx : x.product_id = pid
      · have hbx : b = x := by simp [hx] at hfind; exact hfind.symm
        rw [List.map_cons, List.find?_cons]
        simp [hbx, hupd]
      · have hfx : (x.product_id == pid) = false := by simp [hx]
        rw [hfx] at hfind
        have hbxs : b ∈ xs := List.mem_of_find?_eq_some hfind
        have hxb : (x.id == b.id) = false := by
          simp only [beq_eq_false_iff_ne, ne_eq]
          intro h
          exact hnd.1 (h ▸ List.mem_map_of_mem (fun z => z.id) hbxs)
        rw [List.map_cons, List.find?_cons, hxb]
        simp only [if_false, Bool.false_eq_true]
        rw [hfx]
        exact ih hfind hnd.2

theorem find?_replace_other (inv : List Inventory) (pid p : Nat) (b upd : Inventory)
    (hfind : inv.find? (fun it => it.product_id == pid) = some b)
    (hupd : upd.product_id = pid) (hne : p ≠ pid)
    (hnd : (inv.map (fun it => it.id)).Nodup) :
    (inv.map (fun it : Inventory => if it.id == b.id then upd else it)).find?
      (fun it => it.product_id == p) = inv.find? (fun it => it.product_id == p) := by
  induction inv with
  | nil => simp
  | cons x xs ih =>
      simp only [List.map_cons, List.nodup_cons] at hnd
      rw [List.find?_cons] at hfind
      by_cases hx : x.product_id = pid
      · have hbx : b = x := by simp [hx] at hfind; exact hfind.symm
        have hxp : (x.product_id == p) = false := by
          simp only [beq_eq_false_iff_ne, ne_eq]
          rw [hx]; exact fun h => hne h.symm
        have hbid : (x.id == b.id) = true := by simp [hbx]
        have hxsid : xs.map (fun it : Inventory => if it.id == b.id then upd else it) = xs := by
          have h1 : ∀ y ∈ xs, (if y.id == b.id then upd else y) = y := by
            intro y hy
            have hyb : (y.id == b.id) = false := by
              simp only [beq_eq_false_iff_ne, ne_eq]
              intro h
              apply hnd.1
              have hmem : y.id ∈ xs.map (fun z : Inventory => z.id) :=
                List.mem_map_of_mem (fun z : Inventory => z.id) hy
              rw [h, hbx] at hmem
              exact hmem
            simp [hyb]
          calc xs.map (fun it : Inventory => if it.id == b.id then upd else it)
              = xs.map (fun it : Inventory => it) := List.map_congr_left h1
            _ = xs := List.map_id xs
        rw [List.map_cons, List.find?_cons, hbid]
        simp only [if_true]
        have hup : (upd.product_id == p) = false := by
          simp only [beq_eq_false_iff_ne, ne_eq]
          rw [hupd]; exact fun h => hne h.symm
        rw [hup, List.find?_cons, hxp, hxsid]
      · have hfx : (x.product_id == pid) = false := by simp [hx]
        rw [hfx] at hfind
        have hbxs : b ∈ xs := List.mem_of_find?_eq_some hfind
        have hxb : (x.id == b.id) = false := by
          simp only [beq_eq_false_iff_ne, ne_eq]
          intro h
          exact hnd.1 (h ▸ List.mem_map_of_mem (fun z => z.id) hbxs)
        rw [List.map_cons, List.find?_cons, hxb]
        simp only [if_false, Bool.false_eq_true]
        rw [List.find?_cons]
        cases hxp : (x.product_id == p) with
        | true => rfl
        | false => exact ih hfind hnd.2

/-- A found balance row belongs to its product. -/
theorem getInventoryItem_product (s : MemStorage) (pid : Nat) (b : Inventory)
    (h : getInventoryItem s pid = some b) : b.product_id = pid := by
  have := List.find?_some h
  simpa using this

/-! ### State characterizations of the compound operations -/

/-- The movement row inserted by a successful POST of a movement. -/
def recMov (s : MemStorage) (pid : Nat) (qc : Rat) (unit : String) (tp : Rat)
    (uid now : Nat) : InventoryMovement :=
  { id := s.movementIdCounter, product_id := pid, quantity_change := qc, unit := unit,
    total_price := tp, movement_type := "update", movement_date := now, user_id := some uid }

/-- The balance row as rewritten by updateInventory on an existing row. -/
def updB (b : Inventory) (qc : Rat) (unit : String) (tp : Rat) (uid now : Nat) : Inventory :=
  { b with quantity := b.quantity + qc, unit := unit, total_price := b.total_price + tp,
           last_updated := now, updated_by := some uid }

/-- The balance row created lazily by updateInventory. -/
def newB (s : MemStorage) (pid : Nat) (qc : Rat) (unit : String) (tp : Rat)
    (uid now : Nat) : Inventory :=
  { id := s.inventoryIdCounter, product_id := pid, quantity := qc, unit := unit,
    total_price := tp, last_updated := now, updated_by := some uid }

/-- The balance row as rewritten by deleteInventoryMovement. -/
def delB (b : Inventory) (m : InventoryMovement) (now : Nat) : Inventory :=
  { b with quantity := b.quantity - m.quantity_change,
           total_price := b.total_price - m.total_price, last_updated := now }

theorem recordMovement_state_some (s : MemStorage) (pid : Nat) (qc : Rat) (unit : String)
    (tp : Rat) (uid now : Nat) (b : Inventory) (hb : getInventoryItem s pid = some b) :
    (recordMovement s pid qc unit tp uid now).1 =
      { s with
        inventoryMovements := s.inventoryMovements ++ [recMov s pid qc unit tp uid now],
        movementIdCounter := s.movementIdCounter + 1,
        inventory := s.inventory.map (fun it : Inventory =>
          if it.id == b.id then updB b qc unit tp uid now else it) } := by
  unfold recordMovement createInventoryMovement updateInventory getInventoryItem
  unfold getInventoryItem at hb
  dsimp only
  rw [hb]
  rfl

theorem recordMovement_state_none (s : MemStorage) (pid : Nat) (qc : Rat) (unit : String)
    (tp : Rat) (uid now : Nat) (hb : getInventoryItem s pid = none) :
    (recordMovement s pid qc unit tp uid now).1 =
      { s with
        inventoryMovements := s.inventoryMovements ++ [recMov s pid qc unit tp uid now],
        movementIdCounter := s.movementIdCounter + 1,
        inventory := s.inventory ++ [newB s pid qc unit tp uid now],
        inventoryIdCounter := s.inventoryIdCounter + 1 } := by
  unfold recordMovement createInventoryMovement updateInventory getInventoryItem
  unfold getInventoryItem at hb
  dsimp only
  rw [hb]
  rfl

theorem deleteInventoryMovement_state (s : MemStorage) (id now : Nat)
    (m : InventoryMovement) (b : Inventory)
    (hm : getInventoryMovement s id = some m)
    (hb : getInventoryItem s m.product_id = some b) :
    deleteInventoryMovement s id now =
      ({ s with
          inventory := s.inventory.map (fun it : Inventory =>
            if it.id == b.id then delB b m now else it),
          inventoryMovements := s.inventoryMovements.filter (fun x => x.id != id) },
       true) := by
  unfold deleteInventoryMovement
  rw [hm]
  dsimp only
  rw [hb]
  rfl

theorem deleteInventoryMovement_state_nobal (s : MemStorage) (id now : Nat)
    (m : InventoryMovement)
    (hm : getInventoryMovement s id = some m)
    (hb : getInventoryItem s m.product_id = none) :
    deleteInventoryMovement s id now =
      ({ s with inventoryMovements := s.inventoryMovements.filter (fun x => x.id != id) },
       true) := by
  unfold deleteInventoryMovement
  rw [hm]
  dsimp only
  rw [hb]

/-! ### Preservation of well-formedness by the ledger operations -/

theorem nodup_ids_append (ids : List Nat) (c : Nat) (hnd : ids.Nodup)
    (hlt : ∀ i ∈ ids, i < c) : (ids ++ [c]).Nodup := by
  rw [List.nodup_append]
  refine ⟨hnd, List.nodup_singleton c, ?_⟩
  intro a ha hc
  rw [List.mem_singleton] at hc
  subst hc
  exact absurd (hlt a ha) (lt_irrefl a)

theorem storeWF_initial : StoreWF initialStorage := by
  refine ⟨?_, ?_, ?_, ?_, ?_, ?_⟩ <;> simp [initialStorage, getInventoryItem]

theorem storeWF_record (s : MemStorage) (h : StoreWF s) (pid : Nat) (qc : Rat)
    (unit : String) (tp : Rat) (uid now : Nat) :
    StoreWF (recordMovement s pid qc unit tp uid now).1 := by
  cases hb : getInventoryItem s pid with
  | some b =>
      have hbpid : b.product_id = pid := getInventoryItem_product s pid b hb
      rw [recordMovement_state_some s pid qc unit tp uid now b hb]
      have hb' : s.inventory.find? (fun it => it.product_id == pid) = some b := hb
      refine ⟨?_, ?_, ?_, ?_, ?_, ?_⟩
      · show ((s.inventoryMovements ++ [recMov s pid qc unit tp uid now]).map
          (fun m => m.id)).Nodup
        rw [List.map_append]
        exact nodup_ids_append _ _ h.movIds (by
          intro i hi
          rcases List.mem_map.mp hi with ⟨m, hm, rfl⟩
          exact h.movIdLt m hm)
      · intro m hm
        rcases List.mem_append.mp hm with hm | hm
        · exact Nat.lt_succ_of_lt (h.movIdLt m hm)
        · rw [List.mem_singleton] at hm
          subst hm
          exact Nat.lt_succ_self _
      · show ((s.inventory.map (fun it : Inventory =>
          if it.id == b.id then updB b qc unit tp uid now else it)).map
            (fun it => it.id)).Nodup
        rw [replace_map_id s.inventory b (updB b qc unit tp uid now) rfl]
        exact h.invIds
      · intro it hit
        rcases List.mem_map.mp hit with ⟨it0, h0, rfl⟩
        by_cases hid : it0.id = b.id
        · have hred : (if it0.id == b.id then updB b qc unit tp uid now else it0).id
              = b.id := by simp [hid, updB]
          rw [hred, ← hid]
          exact h.invIdLt it0 h0
        · have hred : (if it0.id == b.id then updB b qc unit tp uid now else it0).id
              = it0.id := by simp [hid]
          rw [hred]
          exact h.invIdLt it0 h0
      · intro p hp
        have hp2 : (s.inventory.map (fun it : Inventory =>
            if it.id == b.id then updB b qc unit tp uid now else it)).find?
            (fun it => it.product_id == p) = none := hp
        by_cases hppid : p = pid
        · subst hppid
          rw [find?_replace_self s.inventory p b (updB b qc unit tp uid now) hb'
            (by show b.product_id = p; exact hbpid) h.invIds] at hp2
          cases hp2
        · rw [find?_replace_other s.inventory pid p b (updB b qc unit tp uid now)
            hb' (by show b.product_id = pid; exact hbpid) hppid h.invIds] at hp2
          have hnil := h.ledgerNone p hp2
          show (s.inventoryMovements ++ [recMov s pid qc unit tp uid now]).filter
            (fun m => m.product_id == p) = []
          rw [List.filter_append, hnil]
          simp [recMov, hppid, Ne.symm hppid]
      · intro p b2 hp
        have hp2 : (s.inventory.map (fun it : Inventory =>
            if it.id == b.id then updB b qc unit tp uid now else it)).find?
            (fun it => it.product_id == p) = some b2 := hp
        by_cases hppid : p = pid
        · subst hppid
          rw [find?_replace_self s.inventory p b (updB b qc unit tp uid now) hb'
            (by show b.product_id = p; exact hbpid) h.invIds] at hp2
          injection hp2 with hp2
          subst hp2
          have hold := h.ledgerSome p b hb
          constructor
          · have hq : b.quantity
                = fieldSum (fun m => m.quantity_change) s.inventoryMovements p := hold.1
            show b.quantity + qc = fieldSum (fun m => m.quantity_change)
              (s.inventoryMovements ++ [recMov s p qc unit tp uid now]) p
            rw [fieldSum_append_single,
              if_pos (by rfl : (recMov s p qc unit tp uid now).product_id = p), ← hq]
            rfl
          · have hq : b.total_price
                = fieldSum (fun m => m.total_price) s.inventoryMovements p := hold.2
            show b.total_price + tp = fieldSum (fun m => m.total_price)
              (s.inventoryMovements ++ [recMov s p qc unit tp uid now]) p
            rw [fieldSum_append_single,
              if_pos (by rfl : (recMov s p qc unit tp uid now).product_id = p), ← hq]
            rfl
        · rw [find?_replace_other s.inventory pid p b (updB b qc unit tp uid now)
            hb' (by show b.product_id = pid; exact hbpid) hppid h.invIds] at hp2
          have hold := h.ledgerSome p b2 hp2
          have hmask : ¬((recMov s pid qc unit tp uid now).product_id = p) := by
            show ¬(pid = p)
            exact fun hcon => hppid hcon.symm
          constructor
          · show b2.quantity = fieldSum (fun m => m.quantity_change)
              (s.inventoryMovements ++ [recMov s pid qc unit tp uid now]) p
            rw [fieldSum_append_single, if_neg hmask, add_zero]
            exact hold.1
          · show b2.total_price = fieldSum (fun m => m.total_price)
              (s.inventoryMovements ++ [recMov s pid qc unit tp uid now]) p
            rw [fieldSum_append_single, if_neg hmask, add_zero]
            exact hold.2
  | none =>
      rw [recordMovement_state_none s pid qc unit tp uid now hb]
      refine ⟨?_, ?_, ?_, ?_, ?_, ?_⟩
      · show ((s.inventoryMovements ++ [recMov s pid qc unit tp uid now]).map
          (fun m => m.id)).Nodup
        rw [List.map_append]
        exact nodup_ids_append _ _ h.movIds (by
          intro i hi
          rcases List.mem_map.mp hi with ⟨m, hm, rfl⟩
          exact h.movIdLt m hm)
      · intro m hm
        rcases List.mem_append.mp hm with hm | hm
        · exact Nat.lt_succ_of_lt (h.movIdLt m hm)
        · rw [List.mem_singleton] at hm
          subst hm
          exact Nat.lt_succ_self _
      · show ((s.inventory ++ [newB s pid qc unit tp uid now]).map
          (fun it => it.id)).Nodup
        rw [List.map_append]
        exact nodup_ids_append _ _ h.invIds (by
          intro i hi
          rcases List.mem_map.mp hi with ⟨it, hit, rfl⟩
          exact h.invIdLt it hit)
      · intro it hit
        rcases List.mem_append.mp hit with hit | hit
        · exact Nat.lt_succ_of_lt (h.invIdLt it hit)
        · rw [List.mem_singleton] at hit
          subst hit
          exact Nat.lt_succ_self _
      · intro p hp
        have hp2 : (s.inventory ++ [newB s pid qc unit tp uid now]).find?
            (fun it => it.product_id == p) = none := hp
        rw [List.find?_append] at hp2
        by_cases hppid : p = pid
        · subst hppid
          have hnp : ((newB s p qc unit tp uid now).product_id == p) = true := by
            simp [newB]
          cases hfi : s.inventory.find? (fun it => it.product_id == p) with
          | some x => rw [hfi] at hp2; simp at hp2
          | none => rw [hfi] at hp2; simp [List.find?, hnp] at hp2
        · cases hfi : s.inventory.find? (fun it => it.product_id == p) with
          | some x => rw [hfi] at hp2; simp at hp2
          | none =>
              have hnil := h.ledgerNone p hfi
              show (s.inventoryMovements ++ [recMov s pid qc unit tp uid now]).filter
                (fun m => m.product_id == p) = []
              rw [List.filter_append, hnil]
              simp [recMov, hppid, Ne.symm hppid]
      · intro p b2 hp
        have hp2 : (s.inventory ++ [newB s pid qc unit tp uid now]).find?
            (fun it => it.product_id == p) = some b2 := hp
        rw [List.find?_append] at hp2
        by_cases hppid : p = pid
        · subst hppid
          rw [show s.inventory.find? (fun it => it.product_id == p) = none from hb] at hp2
          have hnp : ((newB s p qc unit tp uid now).product_id == p) = true := by
            simp [newB]
          rw [show ([newB s p qc unit tp uid now].find? (fun it => it.product_id == p))
            = some (newB s p qc unit tp uid now) by simp [List.find?, hnp]] at hp2
          rw [Option.none_or] at hp2
          injection hp2 with hp2
          subst hp2
          have hnil := h.ledgerNone p hb
          have hq0 : fieldSum (fun m => m.quantity_change) s.inventoryMovements p = 0 := by
            rw [fieldSum, hnil]; simp
          have hp0 : fieldSum (fun m => m.total_price) s.inventoryMovements p = 0 := by
            rw [fieldSum, hnil]; simp
          constructor
          · show qc = fieldSum (fun m => m.quantity_change)
              (s.inventoryMovements ++ [recMov s p qc unit tp uid now]) p
            rw [fieldSum_append_single, hq0,
              if_pos (by rfl : (recMov s p qc unit tp uid now).product_id = p), zero_add]
            rfl
          · show tp = fieldSum (fun m => m.total_price)
              (s.inventoryMovements ++ [recMov s p qc unit tp uid now]) p
            rw [fieldSum_append_single, hp0,
              if_pos (by rfl : (recMov s p qc unit tp uid now).product_id = p), zero_add]
            rfl
        · have hnew : ((newB s pid qc unit tp uid now).product_id == p) = false := by
            simp [newB]
            exact fun hcon => hppid hcon.symm
          rw [show ([newB s pid qc unit tp uid now].find? (fun it => it.product_id == p))
            = none by simp [List.find?, hnew]] at hp2
          rw [Option.or_none] at hp2
          have hold := h.ledgerSome p b2 hp2
          have hmask : ¬((recMov s pid qc unit tp uid now).product_id = p) := by
            show ¬(pid = p)
            exact fun hcon => hppid hcon.symm
          constructor
          · show b2.quantity = fieldSum (fun m => m.quantity_change)
              (s.inventoryMovements ++ [recMov s pid qc unit tp uid now]) p
            rw [fieldSum_append_single, if_neg hmask, add_zero]
            exact hold.1
          · show b2.total_price = fieldSum (fun m => m.total_price)
              (s.inventoryMovements ++ [recMov s pid qc unit tp uid now]) p
            rw [fieldSum_append_single, if_neg hmask, add_zero]
            exact hold.2

theorem storeWF_delete (s : MemStorage) (h : StoreWF s) (id now : Nat) :
    StoreWF (deleteInventoryMovement s id now).1 := by
  cases hm : getInventoryMovement s id with
  | none =>
      have hid : deleteInventoryMovement s id now = (s, false) := by
        unfold deleteInventoryMovement
        rw [hm]
      rw [hid]
      exact h
  | some m =>
      have hmem : m ∈ s.inventoryMovements := List.mem_of_find?_eq_some hm
      cases hbal : getInventoryItem s m.product_id with
      | none =>
          exfalso
          have hnil := h.ledgerNone m.product_id hbal
          have hmm : m ∈ s.inventoryMovements.filter
              (fun x => x.product_id == m.product_id) :=
            List.mem_filter.mpr ⟨hmem, by simp⟩
          rw [hnil] at hmm
          simp at hmm
      | some b =>
          have hbpid : b.product_id = m.product_id := getInventoryItem_product s _ b hbal
          rw [deleteInventoryMovement_state s id now m b hm hbal]
          have hfm : s.inventoryMovements.find? (fun x => x.id == id) = some m := hm
          refine ⟨?_, ?_, ?_, ?_, ?_, ?_⟩
          · show ((s.inventoryMovements.filter (fun x => x.id != id)).map
              (fun m => m.id)).Nodup
            exact (((List.filter_sublist s.inventoryMovements)).map
              (fun m => m.id)).nodup h.movIds
          · intro x hx
            exact h.movIdLt x (List.mem_filter.mp hx).1
          · show ((s.inventory.map (fun it : Inventory =>
              if it.id == b.id then delB b m now else it)).map (fun it => it.id)).Nodup
            rw [replace_map_id s.inventory b (delB b m now) rfl]
            exact h.invIds
          · intro it hit
            rcases List.mem_map.mp hit with ⟨it0, h0, rfl⟩
            by_cases hidb : it0.id = b.id
            · have hred : (if it0.id == b.id then delB b m now else it0).id = b.id := by
                simp [hidb, delB]
              rw [hred, ← hidb]
              exact h.invIdLt it0 h0
            · have hred : (if it0.id == b.id then delB b m now else it0).id = it0.id := by
                simp [hidb]
              rw [hred]
              exact h.invIdLt it0 h0
          · intro p hp
            have hp2 : (s.inventory.map (fun it : Inventory =>
                if it.id == b.id then delB b m now else it)).find?
                (fun it => it.product_id == p) = none := hp
            by_cases hpm : p = m.product_id
            · subst hpm
              rw [find?_replace_self s.inventory m.product_id b (delB b m now)
                hbal (by show b.product_id = m.product_id; exact hbpid) h.invIds] at hp2
              cases hp2
            · rw [find?_replace_other s.inventory m.product_id p b (delB b m now)
                hbal (by show b.product_id = m.product_id; exact hbpid)
                hpm h.invIds] at hp2
              have hnil := h.ledgerNone p hp2
              show (s.inventoryMovements.filter (fun x => x.id != id)).filter
                (fun x => x.product_id == p) = []
              rw [List.filter_eq_nil_iff]
              intro a ha
              exact List.filter_eq_nil_iff.mp hnil a (List.mem_filter.mp ha).1
          · intro p b2 hp
            have hp2 : (s.inventory.map (fun it : Inventory =>
                if it.id == b.id then delB b m now else it)).find?
                (fun it => it.product_id == p) = some b2 := hp
            by_cases hpm : p = m.product_id
            · subst hpm
              rw [find?_replace_self s.inventory m.product_id b (delB b m now)
                hbal (by show b.product_id = m.product_id; exact hbpid) h.invIds] at hp2
              injection hp2 with hp2
              subst hp2
              have hold := h.ledgerSome m.product_id b hbal
              have hq : b.quantity = fieldSum (fun x => x.quantity_change)
                  s.inventoryMovements m.product_id := hold.1
              have hpp : b.total_price = fieldSum (fun x => x.total_price)
                  s.inventoryMovements m.product_id := hold.2
              constructor
              · show b.quantity - m.quantity_change = fieldSum (fun x => x.quantity_change)
                  (s.inventoryMovements.filter (fun x => x.id != id)) m.product_id
                rw [fieldSum_remove (fun x => x.quantity_change) s.inventoryMovements id m
                  h.movIds hfm m.product_id, ← hq, if_pos rfl]
              · show b.total_price - m.total_price = fieldSum (fun x => x.total_price)
                  (s.inventoryMovements.filter (fun x => x.id != id)) m.product_id
                rw [fieldSum_remove (fun x => x.total_price) s.inventoryMovements id m
                  h.movIds hfm m.product_id, ← hpp, if_pos rfl]
            · rw [find?_replace_other s.inventory m.product_id p b (delB b m now)
                hbal (by show b.product_id = m.product_id; exact hbpid)
                hpm h.invIds] at hp2
              have hold := h.ledgerSome p b2 hp2
              have hmask : ¬(m.product_id = p) := fun hcon => hpm hcon.symm
              constructor
              · show b2.quantity = fieldSum (fun x => x.quantity_change)
                  (s.inventoryMovements.filter (fun x => x.id != id)) p
                rw [fieldSum_remove (fun x => x.quantity_change) s.inventoryMovements id m
                  h.movIds hfm p, if_neg hmask, sub_zero]
                exact hold.1
              · show b2.total_price = fieldSum (fun x => x.total_price)
                  (s.inventoryMovements.filter (fun x => x.id != id)) p
                rw [fieldSum_remove (fun x => x.total_price) s.inventoryMovements id m
                  h.movIds hfm p, if_neg hmask, sub_zero]
                exact hold.2

theorem storeWF_apply (s : MemStorage) (h : StoreWF s) (op : LedgerOp) :
    StoreWF (applyLedgerOp s op) := by
  cases op with
  | record pid qc unit tp uid now => exact storeWF_record s h pid qc unit tp uid now
  | delete id now => exact storeWF_delete s h id now

theorem storeWF_run (ops : List LedgerOp) : ∀ s : MemStorage, StoreWF s →
    StoreWF (runLedgerOps s ops) := by
  induction ops with
  | nil => intro s h; exact h
  | cons op rest ih =>
      intro s h
      show StoreWF (runLedgerOps (applyLedgerOp s op) rest)
      exact ih _ (storeWF_apply s h op)

/-! ### Claim theorems -/

/-- C1: for every sequence of recordMovement and deleteMovement operations on
the fresh store, and for every product, the balance row quantity equals the
sum of quantity_change over the non-deleted movements of the product and the
balance total_price equals the sum of their total_price, a missing balance
row standing for zero sums; this holds after every operation. -/
theorem balance_matches_ledger_after_any_ops (ops : List LedgerOp) (pid : Nat) :
    BalanceMatchesLedger (runLedgerOps initialStorage ops) pid := by
  have h := storeWF_run ops initialStorage storeWF_initial
  unfold BalanceMatchesLedger
  cases hb : getInventoryItem (runLedgerOps initialStorage ops) pid with
  | none =>
      have hnil := h.ledgerNone pid hb
      have h1 : movementQuantitySum (runLedgerOps initialStorage ops) pid = 0 := by
        show fieldSum (fun m => m.quantity_change)
          (runLedgerOps initialStorage ops).inventoryMovements pid = 0
        rw [fieldSum, hnil]
        simp
      have h2 : movementPriceSum (runLedgerOps initialStorage ops) pid = 0 := by
        show fieldSum (fun m => m.total_price)
          (runLedgerOps initialStorage ops).inventoryMovements pid = 0
        rw [fieldSum, hnil]
        simp
      exact ⟨h1, h2⟩
  | some b => exact h.ledgerSome pid b hb

/-- Not-found behaviour of deleteInventoryMovement, shared helper. -/
theorem deleteInventoryMovement_notFound (s : MemStorage) (id now : Nat)
    (h : getInventoryMovement s id = none) :
    deleteInventoryMovement s id now = (s, false) := by
  unfold deleteInventoryMovement
  rw [h]

/-- movements are untouched by updateInventory. -/
theorem updateInventory_movements (s : MemStorage) (item : InsertInventory) (now : Nat) :
    (updateInventory s item now).1.inventoryMovements = s.inventoryMovements := by
  unfold updateInventory
  cases getInventoryItem s item.product_id <;> rfl

/-- C3: deleting an existing movement reports true, subtracts exactly its
quantity_change and total_price from the balance row of its product, leaves
the unit label of the balance unchanged, and removes the movement row. -/
theorem deleteMovement_reverses_balance (s : MemStorage) (id now : Nat)
    (m : InventoryMovement) (b : Inventory)
    (hm : getInventoryMovement s id = some m)
    (hb : getInventoryItem s m.product_id = some b)
    (hinv : (s.inventory.map (fun it => it.id)).Nodup) :
    (deleteInventoryMovement s id now).2 = true ∧
    getInventoryItem (deleteInventoryMovement s id now).1 m.product_id =
      some { b with quantity := b.quantity - m.quantity_change,
                    total_price := b.total_price - m.total_price,
                    last_updated := now } ∧
    ((getInventoryItem (deleteInventoryMovement s id now).1 m.product_id).map
      (fun it => it.unit)) = some b.unit ∧
    getInventoryMovement (deleteInventoryMovement s id now).1 id = none ∧
    (deleteInventoryMovement s id now).1.inventoryMovements =
      s.inventoryMovements.filter (fun x => x.id != id) := by
  have hbpid : b.product_id = m.product_id := getInventoryItem_product s _ b hb
  rw [deleteInventoryMovement_state s id now m b hm hb]
  have hself := find?_replace_self s.inventory m.product_id b (delB b m now) hb
    (by show b.product_id = m.product_id; exact hbpid) hinv
  refine ⟨rfl, ?_, ?_, ?_, rfl⟩
  · show (s.inventory.map (fun it : Inventory =>
      if it.id == b.id then delB b m now else it)).find?
      (fun it => it.product_id == m.product_id) = _
    rw [hself]
    rfl
  · show ((s.inventory.map (fun it : Inventory =>
      if it.id == b.id then delB b m now else it)).find?
      (fun it => it.product_id == m.product_id)).map (fun it => it.unit) = some b.unit
    rw [hself]
    rfl
  · exact find?_filter_ne_id _ id

/-- Concrete store used by witnesses: product 1 "Un" with one movement
(+10 kg, price 100, at time 5); its balance row carries quantity 10, unit kg
and total price 100, all stored at creation without arithmetic. -/
def exampleState : MemStorage :=
  (recordMovement (createProduct initialStorage "Un" (some "GIDA")).1 1 10 "kg" 100 1 5).1

/-- The movement of exampleState. -/
def exampleMovement : InventoryMovement :=
  ⟨1, 1, 10, "kg", 100, "update", 5, some 1⟩

/-- The balance row of exampleState. -/
def exampleBalance : Inventory := ⟨1, 1, 10, "kg", 100, 5, some 1⟩

theorem deleteMovement_reverses_balance_witness :
    (deleteInventoryMovement exampleState 1 7).2 = true ∧
    getInventoryItem (deleteInventoryMovement exampleState 1 7).1
        exampleMovement.product_id =
      some { exampleBalance with
              quantity := exampleBalance.quantity - exampleMovement.quantity_change,
              total_price := exampleBalance.total_price - exampleMovement.total_price,
              last_updated := 7 } ∧
    ((getInventoryItem (deleteInventoryMovement exampleState 1 7).1
        exampleMovement.product_id).map (fun it => it.unit))
      = some exampleBalance.unit ∧
    getInventoryMovement (deleteInventoryMovement exampleState 1 7).1 1 = none ∧
    (deleteInventoryMovement exampleState 1 7).1.inventoryMovements =
      exampleState.inventoryMovements.filter (fun x => x.id != 1) :=
  deleteMovement_reverses_balance exampleState 1 7 exampleMovement exampleBalance
    (by decide) (by decide) (by decide)

/-- C4: deleting a movement id absent from the store reports false and leaves
the whole state (every balance included) unchanged; after any deletion of an
id, deleting the same id again reports not-found with no further change. -/
theorem deleteMovement_absent_id_noop (s : MemStorage) (id now now2 : Nat) :
    (getInventoryMovement s id = none → deleteInventoryMovement s id now = (s, false)) ∧
    deleteInventoryMovement (deleteInventoryMovement s id now).1 id now2 =
      ((deleteInventoryMovement s id now).1, false) := by
  constructor
  · intro h
    exact deleteInventoryMovement_notFound s id now h
  · cases hm : getInventoryMovement s id with
    | none =>
        rw [deleteInventoryMovement_notFound s id now hm]
        exact deleteInventoryMovement_notFound s id now2 hm
    | some m =>
        apply deleteInventoryMovement_notFound
        cases hbal : getInventoryItem s m.product_id with
        | some b =>
            rw [deleteInventoryMovement_state s id now m b hm hbal]
            exact find?_filter_ne_id _ id
        | none =>
            rw [deleteInventoryMovement_state_nobal s id now m hm hbal]
            exact find?_filter_ne_id _ id

theorem deleteMovement_absent_id_noop_witness :
    getInventoryMovement exampleState 99 = none ∧
    deleteInventoryMovement exampleState 99 7 = (exampleState, false) ∧
    deleteInventoryMovement (deleteInventoryMovement exampleState 1 7).1 1 8 =
      ((deleteInventoryMovement exampleState 1 7).1, false) :=
  ⟨by decide,
   (deleteMovement_absent_id_noop exampleState 99 7 8).1 (by decide),
   (deleteMovement_absent_id_noop exampleState 1 7 8).2⟩

/-- C5: the inventory report returns exactly one row per existing product, in
order; each row carries the current balance figures of the product, with
quantity 0, empty unit and value 0 when no balance row exists, and its
movement_count is the number of movements of the product dated inside the
inclusive window. -/
theorem inventoryReport_row_per_product (s : MemStorage) (startDate endDate : Nat) :
    (getInventoryReport s startDate endDate).length = s.products.length ∧
    ∀ i : Nat, (getInventoryReport s startDate endDate)[i]? =
      (s.products[i]?).map (fun product =>
        { id := product.id
          name := product.name
          category := product.category
          current_quantity := ((getInventoryItem s product.id).map
            (fun it => it.quantity)).getD 0
          unit := ((getInventoryItem s product.id).map (fun it => it.unit)).getD ""
          total_value := ((getInventoryItem s product.id).map
            (fun it => it.total_price)).getD 0
          movement_count := (s.inventoryMovements.filter (fun m =>
            m.product_id == product.id &&
            decide (startDate ≤ m.movement_date) &&
            decide (m.movement_date ≤ endDate))).length }) := by
  constructor
  · show (s.products.map _).length = s.products.length
    rw [List.length_map]
  · intro i
    show (s.products.map _)[i]? = _
    rw [List.getElem?_map]

/-- The bootstrap admin account of the store. -/
def adminUser : User := ⟨1, "admin", "hashed-1234", true, true, true, true⟩

/-- Store with the admin account and one further non-admin account. -/
def c7State : MemStorage :=
  { initialStorage with users := [adminUser, ⟨2, "ali", "pw", false, false, false, true⟩] }

/-- C7: under an authenticated admin requester stored in the user table, the
delete-user endpoint rejects self-deletion with no state change, rejects
deleting an admin account while exactly one admin exists, and every state it
produces still contains at least one admin account. -/
theorem deleteUser_admin_protections (s : MemStorage) (requester : User) (id : Nat)
    (hreq : requester ∈ s.users) (hadmin : requester.is_admin = true) :
    (id = requester.id → deleteUserRoute s requester id = (s, 400)) ∧
    (∀ t : User, getUser s id = some t → t.is_admin = true →
      (s.users.filter (fun u => u.is_admin)).length = 1 →
      deleteUserRoute s requester id = (s, 400)) ∧
    (∃ u ∈ (deleteUserRoute s requester id).1.users, u.is_admin = true) := by
  refine ⟨?_, ?_, ?_⟩
  · intro h
    simp [deleteUserRoute, hadmin, h]
  · intro t ht htadmin hlen
    by_cases h1 : id = requester.id
    · simp [deleteUserRoute, hadmin, h1]
    · simp [deleteUserRoute, hadmin, h1, ht, htadmin, hlen]
  · by_cases h1 : id = requester.id
    · have hroute : deleteUserRoute s requester id = (s, 400) := by
        simp [deleteUserRoute, hadmin, h1]
      rw [hroute]
      exact ⟨requester, hreq, hadmin⟩
    · have husers : (deleteUserRoute s requester id).1.users = s.users ∨
          (deleteUserRoute s requester id).1.users
            = s.users.filter (fun u => u.id != id) := by
        by_cases h2 : ((match getUser s id with
            | some t => t.is_admin
            | none => false) &&
            decide ((s.users.filter (fun u => u.is_admin)).length ≤ 1)) = true
        · left
          simp [deleteUserRoute, hadmin, h1, h2]
        · by_cases h3 : (s.users.any (fun u => u.id == id)) = true
          · right
            simp [deleteUserRoute, deleteUser, hadmin, h1, h2, h3]
          · left
            simp [deleteUserRoute, deleteUser, hadmin, h1, h2, h3]
      rcases husers with h | h
      · rw [h]
        exact ⟨requester, hreq, hadmin⟩
      · rw [h]
        refine ⟨requester, List.mem_filter.mpr ⟨hreq, ?_⟩, hadmin⟩
        simp only [bne_iff_ne, ne_eq]
        exact fun hc => h1 hc.symm

theorem deleteUser_admin_protections_witness :
    ((2 : Nat) = adminUser.id → deleteUserRoute c7State adminUser 2 = (c7State, 400)) ∧
    (∀ t : User, getUser c7State 2 = some t → t.is_admin = true →
      (c7State.users.filter (fun u => u.is_admin)).length = 1 →
      deleteUserRoute c7State adminUser 2 = (c7State, 400)) ∧
    (∃ u ∈ (deleteUserRoute c7State adminUser 2).1.users, u.is_admin = true) :=
  deleteUser_admin_protections c7State adminUser 2 (by decide) (by decide)

/-- Every group accumulated by the summary reduce keeps a nonnegative
quantity. -/
theorem summaryGroups_quantity_nonneg_aux (rows : List ReportRow) :
    ∀ acc : List SummaryGroup, (∀ g ∈ acc, 0 ≤ g.quantity) →
      ∀ g ∈ rows.foldl addToGroups acc, 0 ≤ g.quantity := by
  induction rows with
  | nil =>
      intro acc hacc g hg
      exact hacc g hg
  | cons r rest ih =>
      intro acc hacc g hg
      refine ih (addToGroups acc r) ?_ g hg
      intro g2 hg2
      unfold addToGroups at hg2
      by_cases hany : (acc.any (fun g => g.name == r.product_name)) = true
      · rw [if_pos hany] at hg2
        rcases List.mem_map.mp hg2 with ⟨g0, h0, rfl⟩
        by_cases hname : g0.name = r.product_name
        · have hred : (if g0.name == r.product_name then
              { g0 with quantity := g0.quantity + |r.quantity_change|,
                        total_price := g0.total_price + r.total_price } else g0)
              = { g0 with quantity := g0.quantity + |r.quantity_change|,
                          total_price := g0.total_price + r.total_price } := by
            simp [hname]
          rw [hred]
          show 0 ≤ g0.quantity + |r.quantity_change|
          exact add_nonneg (hacc g0 h0) (abs_nonneg _)
        · have hred : (if g0.name == r.product_name then
              { g0 with quantity := g0.quantity + |r.quantity_change|,
                        total_price := g0.total_price + r.total_price } else g0) = g0 := by
            simp [hname]
          rw [hred]
          exact hacc g0 h0
      · rw [if_neg hany] at hg2
        rcases List.mem_append.mp hg2 with h | h
        · exact hacc g2 h
        · rw [List.mem_singleton] at h
          subst h
          show 0 ≤ |r.quantity_change|
          exact abs_nonneg _

/-- C8: every product group of the summary aggregation has a nonnegative
quantity, and the derived unit price is total_price over quantity when the
quantity is positive and exactly zero when the quantity is zero, so the guard
is exhaustive and no division by zero happens. -/
theorem summary_unitPrice_guard (rows : List ReportRow) (g : SummaryGroup)
    (hg : g ∈ summaryGroups rows) :
    0 ≤ g.quantity ∧
    (g.quantity = 0 → unitPrice g = 0) ∧
    (0 < g.quantity → unitPrice g = g.total_price / g.quantity) := by
  refine ⟨?_, ?_, ?_⟩
  · exact summaryGroups_quantity_nonneg_aux rows [] (by simp) g hg
  · intro h0
    unfold unitPrice
    rw [if_neg]
    rw [h0]
    exact lt_irrefl 0
  · intro hpos
    unfold unitPrice
    rw [if_pos hpos]

theorem summary_unitPrice_guard_witness :
    0 ≤ (⟨"Tuz", 0, "g", 3⟩ : SummaryGroup).quantity ∧
    ((⟨"Tuz", 0, "g", 3⟩ : SummaryGroup).quantity = 0 →
      unitPrice ⟨"Tuz", 0, "g", 3⟩ = 0) ∧
    (0 < (⟨"Tuz", 0, "g", 3⟩ : SummaryGroup).quantity →
      unitPrice ⟨"Tuz", 0, "g", 3⟩ = (⟨"Tuz", 0, "g", 3⟩ : SummaryGroup).total_price
        / (⟨"Tuz", 0, "g", 3⟩ : SummaryGroup).quantity) :=
  summary_unitPrice_guard [⟨"Tuz", 0, "g", 3⟩] ⟨"Tuz", 0, "g", 3⟩
    (by simp [summaryGroups, addToGroups])

/-- movements of the state produced by recordMovement: the single appended
row. -/
theorem recordMovement_movements (s : MemStorage) (pid : Nat) (qc : Rat)
    (u : String) (tp : Rat) (uid now : Nat) :
    (recordMovement s pid qc u tp uid now).1.inventoryMovements
      = s.inventoryMovements ++ [recMov s pid qc u tp uid now] := by
  cases hb : getInventoryItem s pid with
  | some b => rw [recordMovement_state_some s pid qc u tp uid now b hb]
  | none => rw [recordMovement_state_none s pid qc u tp uid now hb]

/-- C10 amended: the movement endpoint tests required fields by truthiness
of the raw JSON values: a request whose quantity_change or product_id is the
number 0 is rejected as a missing-field error with no state change, a
total_price of the number 0 passes validation (it is checked only against
undefined), and every movement created from a request whose quantity_change
arrives as a number is nonzero — but the check does not survive string
coercion, so a zero-quantity movement can still be created (see the
counterexample). -/
theorem movement_validation_truthiness (s : MemStorage) (r : JsonMovementRequest)
    (uid now : Nat) :
    (r.quantity_change = some (.num 0) →
      postMovementHandlerJson s r uid now = some (s, 400)) ∧
    (r.product_id = some (.num 0) →
      postMovementHandlerJson s r uid now = some (s, 400)) ∧
    (∀ (pid qc : Rat) (u : String), pid ≠ 0 → qc ≠ 0 → u ≠ "" →
      jsonMovementRequestValid
        ⟨some (.num pid), some (.num qc), some (.str u), some (.num 0)⟩ = true) ∧
    (∀ (qc : Rat) (st : MemStorage) (code : Nat),
      r.quantity_change = some (.num qc) →
      postMovementHandlerJson s r uid now = some (st, code) →
      ∀ m ∈ st.inventoryMovements,
        m ∈ s.inventoryMovements ∨ m.quantity_change ≠ 0) := by
  refine ⟨?_, ?_, ?_, ?_⟩
  · intro h
    have hv : jsonMovementRequestValid r = false := by
      simp [jsonMovementRequestValid, bodyTruthy, h]
    simp [postMovementHandlerJson, hv]
  · intro h
    have hv : jsonMovementRequestValid r = false := by
      simp [jsonMovementRequestValid, bodyTruthy, h]
    simp [postMovementHandlerJson, hv]
  · intro pid qc u hpid hqc hu
    simp [jsonMovementRequestValid, bodyTruthy, hpid, hqc, hu]
  · intro qc st code hq hrun m hm
    by_cases hv : jsonMovementRequestValid r = true
    · have hqc : qc ≠ 0 := by
        have h1 := hv
        unfold jsonMovementRequestValid at h1
        rw [Bool.and_eq_true, Bool.and_eq_true, Bool.and_eq_true] at h1
        have h2 : bodyTruthy r.quantity_change = true := h1.1.1.2
        rw [hq] at h2
        simpa [bodyTruthy] using h2
      unfold postMovementHandlerJson at hrun
      rw [if_neg (by simp [hv]), hq] at hrun
      have hqb : (some (BodyVal.num qc)).bind parseFloatVal = some qc := rfl
      rw [hqb] at hrun
      cases hp : r.product_id.bind parseIntVal with
      | none => rw [hp] at hrun; cases hrun
      | some pid =>
          rw [hp] at hrun
          cases hu : unitStringVal r.unit with
          | none => rw [hu] at hrun; cases hrun
          | some u =>
              rw [hu] at hrun
              cases ht : r.total_price.bind parseFloatVal with
              | none => rw [ht] at hrun; cases hrun
              | some tp =>
                  rw [ht] at hrun
                  injection hrun with hrun
                  have hst : st = (recordMovement s pid qc u tp uid now).1 :=
                    (congrArg Prod.fst hrun).symm
                  subst hst
                  rw [recordMovement_movements] at hm
                  rcases List.mem_append.mp hm with h | h
                  · exact Or.inl h
                  · rw [List.mem_singleton] at h
                    subst h
                    exact Or.inr hqc
    · have hv2 : jsonMovementRequestValid r = false := by
        cases hb : jsonMovementRequestValid r with
        | true => exact absurd hb hv
        | false => rfl
      rw [show postMovementHandlerJson s r uid now = some (s, 400) by
        simp [postMovementHandlerJson, hv2]] at hrun
      injection hrun with hrun
      rw [show st = s from (congrArg Prod.fst hrun).symm] at hm
      exact Or.inl hm

theorem movement_validation_truthiness_witness :
    postMovementHandlerJson exampleState
      ⟨some (.num 0), some (.num 0), some (.str "kg"), some (.num 5)⟩ 1 9
      = some (exampleState, 400) ∧
    jsonMovementRequestValid
      ⟨some (.num 1), some (.num 5), some (.str "kg"), some (.num 0)⟩ = true ∧
    (∀ m ∈ exampleState.inventoryMovements,
      m ∈ exampleState.inventoryMovements ∨ m.quantity_change ≠ 0) :=
  ⟨(movement_validation_truthiness exampleState
      ⟨some (.num 0), some (.num 0), some (.str "kg"), some (.num 5)⟩ 1 9).1 rfl,
   (movement_validation_truthiness exampleState
      ⟨some (.num 0), some (.num 0), some (.str "kg"), some (.num 5)⟩ 1 9).2.2.1
      1 5 "kg" (by decide) (by decide) (by decide),
   (movement_validation_truthiness exampleState
      ⟨some (.num 0), some (.num 0), some (.str "kg"), some (.num 5)⟩ 1 9).2.2.2
      0 exampleState 400 rfl
      ((movement_validation_truthiness exampleState
        ⟨some (.num 0), some (.num 0), some (.str "kg"), some (.num 5)⟩ 1 9).1 rfl)⟩

/-- Request whose quantity_change is the string "0". -/
def c10Request : JsonMovementRequest :=
  ⟨some (.num 1), some (.str "0"), some (.str "kg"), some (.num 5)⟩

/-- State after the c10Request run on c10Start: a zero-quantity movement and
a zero-quantity balance row were created. -/
def c10State : MemStorage :=
  { users := (createProduct initialStorage "Un" (some "GIDA")).1.users
    products := (createProduct initialStorage "Un" (some "GIDA")).1.products
    inventory := [⟨1, 1, 0, "kg", 5, 9, some 1⟩]
    inventoryMovements := [⟨1, 1, 0, "kg", 5, "update", 9, some 1⟩]
    userIdCounter := 2, productIdCounter := 2
    inventoryIdCounter := 2, movementIdCounter := 2 }

/-- C10 counterexample: a request whose quantity_change is the non-empty
string "0" is truthy, passes the validation, and parseFloat turns it into
the number 0: the endpoint answers 201 and records a movement (and balance
row) with quantity_change 0, so a zero-quantity movement can be created
through the public interface. -/
theorem zero_quantity_movement_created_counterexample :
    jsonMovementRequestValid c10Request = true ∧
    (createProduct initialStorage "Un" (some "GIDA")).1.inventoryMovements = [] ∧
    postMovementHandlerJson (createProduct initialStorage "Un" (some "GIDA")).1
      c10Request 1 9 = some (c10State, 201) ∧
    (c10State.inventoryMovements.map
      (fun m => (m.product_id, m.quantity_change))) = [(1, 0)] := by
  refine ⟨by decide, by decide, by decide, by decide⟩

/-- C6 amended: in MemStorage, username and product-name lookup are case
insensitive: the stored record is returned for any query that matches the
stored name up to letter case, whenever it is the unique such match. -/
theorem mem_lookups_case_insensitive (s : MemStorage) (qu qp : String)
    (u : User) (p : Product)
    (hu : u ∈ s.users) (hqu : lowerStr u.username = lowerStr qu)
    (huniq : ∀ v ∈ s.users, lowerStr v.username = lowerStr qu → v = u)
    (hp : p ∈ s.products) (hqp : lowerStr p.name = lowerStr qp)
    (puniq : ∀ v ∈ s.products, lowerStr v.name = lowerStr qp → v = p) :
    getUserByUsername s qu = some u ∧ getProductByName s qp = some p := by
  constructor
  · exact find?_eq_of_unique s.users _ u hu (by simp [hqu])
      (fun x hx hpx => huniq x hx (by simpa using hpx))
  · exact find?_eq_of_unique s.products _ p hp (by simp [hqp])
      (fun x hx hpx => puniq x hx (by simpa using hpx))

theorem mem_lookups_case_insensitive_witness :
    getUserByUsername exampleState "ADMIN"
      = some ⟨1, "admin", "hashed-1234", true, true, true, true⟩ ∧
    getProductByName exampleState "uN" = some ⟨1, "Un", "GIDA"⟩ :=
  mem_lookups_case_insensitive exampleState "ADMIN" "uN"
    ⟨1, "admin", "hashed-1234", true, true, true, true⟩ ⟨1, "Un", "GIDA"⟩
    (by decide) (by decide) (by decide) (by decide) (by decide) (by decide)

/-- Database state used by the C6 counterexample. -/
def c6Db : DbState :=
  { users := [⟨1, "admin", "pw", true, true, true, true⟩]
    products := [⟨1, "Un", "GIDA"⟩], inventory := [], inventoryMovements := [] }

/-- C6 counterexample: the live DatabaseStorage compares the username and the
product name with plain equality, so a query differing from the stored name
only in letter case finds nothing. -/
theorem db_lookup_case_sensitive_counterexample :
    lowerStr "Admin" = lowerStr "admin" ∧
    ("Admin" : String) ≠ "admin" ∧
    dbGetUserByUsername c6Db "admin" = some ⟨1, "admin", "pw", true, true, true, true⟩ ∧
    dbGetUserByUsername c6Db "Admin" = none ∧
    lowerStr "un" = lowerStr "Un" ∧
    dbGetProductByName c6Db "un" = none := by
  refine ⟨by decide, by decide, by decide, by decide, by decide, by decide⟩

/-- C9 amended: MemStorage.deleteProduct on an id with no product reports
false, leaves the product table unchanged, and the endpoint answers 404. -/
theorem memDeleteProduct_absent_not_found (s : MemStorage) (id : Nat)
    (h : s.products.find? (fun p => p.id == id) = none) :
    (deleteProduct s id).2 = false ∧
    (deleteProduct s id).1.products = s.products ∧
    (deleteProductRoute s id).2 = 404 := by
  have hany : (s.products.any (fun p => p.id == id)) = false := by
    rw [List.any_eq_false]
    intro x hx
    exact List.find?_eq_none.mp h x hx
  refine ⟨?_, ?_, ?_⟩ <;> simp [deleteProduct, deleteProductRoute, hany]

theorem memDeleteProduct_absent_not_found_witness :
    (deleteProduct exampleState 99).2 = false ∧
    (deleteProduct exampleState 99).1.products = exampleState.products ∧
    (deleteProductRoute exampleState 99).2 = 404 :=
  memDeleteProduct_absent_not_found exampleState 99 (by decide)

/-- Database state used by the C9 counterexample. -/
def c9Db : DbState :=
  { users := [], products := [⟨1, "Un", "GIDA"⟩], inventory := [], inventoryMovements := [] }

/-- C9 counterexample: the live DatabaseStorage deleteProduct returns true
even when no product with the id exists, so the endpoint reports success
(200) instead of not-found (404). -/
theorem dbDeleteProduct_absent_success_counterexample :
    c9Db.products.find? (fun p => p.id == 5) = none ∧
    (dbDeleteProduct c9Db 5).2 = true ∧
    (dbDeleteProductRoute c9Db 5).2 = 200 := by
  refine ⟨by decide, by decide, by decide⟩

/-- State with one product and no movements, before the failing C2 request. -/
def c2Start : MemStorage := (createProduct initialStorage "Un" (some "GIDA")).1

/-- C2: the movement-creation handler is not atomic.  When the balance update
throws after the movement insert already succeeded, the handler answers 500
without any rollback: the inserted movement row stays visible while no
balance row exists, so a half-done ledger mutation is observable and the
balance invariant is violated. -/
theorem recordMovement_not_atomic_on_failure :
    (postMovementHandler c2Start ⟨some 1, some 5, some "kg", some 10⟩ 1 100 true).2
      = 500 ∧
    ((postMovementHandler c2Start ⟨some 1, some 5, some "kg", some 10⟩
        1 100 true).1.inventoryMovements.map
      (fun m => (m.product_id, m.quantity_change, m.total_price))) = [(1, 5, 10)] ∧
    getInventoryItem (postMovementHandler c2Start ⟨some 1, some 5, some "kg", some 10⟩
      1 100 true).1 1 = none ∧
    movementQuantitySum (postMovementHandler c2Start
      ⟨some 1, some 5, some "kg", some 10⟩ 1 100 true).1 1 = 5 ∧
    ¬ BalanceMatchesLedger (postMovementHandler c2Start
      ⟨some 1, some 5, some "kg", some 10⟩ 1 100 true).1 1 := by
  have hlist : (postMovementHandler c2Start ⟨some 1, some 5, some "kg", some 10⟩
      1 100 true).1.inventoryMovements
      = [⟨1, 1, 5, "kg", 10, "update", 100, some 1⟩] := by decide
  have hsum : movementQuantitySum (postMovementHandler c2Start
      ⟨some 1, some 5, some "kg", some 10⟩ 1 100 true).1 1 = 5 := by
    unfold movementQuantitySum fieldSum
    rw [hlist]
    simp
  have hnone : getInventoryItem (postMovementHandler c2Start
      ⟨some 1, some 5, some "kg", some 10⟩ 1 100 true).1 1 = none := by decide
  refine ⟨by decide, by decide, hnone, hsum, ?_⟩
  intro hB
  unfold BalanceMatchesLedger at hB
  rw [hnone] at hB
  have hB2 : movementQuantitySum (postMovementHandler c2Start
      ⟨some 1, some 5, some "kg", some 10⟩ 1 100 true).1 1 = 0 ∧
      movementPriceSum (postMovementHandler c2Start
        ⟨some 1, some 5, some "kg", some 10⟩ 1 100 true).1 1 = 0 := hB
  rw [hsum] at hB2
  exact absurd hB2.1 (by norm_num)

end JavaStok